import Mathlib

/-!
Shallow embedding of the history-visit retrieval core (HistoryVisitFinder and
HistoryVisitStreamer) of the historian extension, translated from
src/src/tools/catalog.js.

Modelling conventions:
* JavaScript Date values and epoch-millisecond numbers are both modelled as
  Int (only getTime arithmetic and comparisons are performed on them).
* The external browser.history provider is a record of two functions:
  search (assumed total, as the code never catches its failures) and
  getVisits (which may fail per call; the code catches exactly those
  failures).  Claims quantify over arbitrary provider behaviour.
* Asynchrony is erased: the code joins all page fetches before using their
  results, and a Streamer instance is used single-call-in-flight, so the
  computation is a deterministic function of the provider.
* The searchVisits while-loop is given explicit fuel.  A result of none
  means the loop did not finish within the given fuel; a statement that the
  result is none for every fuel says the loop runs forever.
* A thrown TypeError (null dereference, failed regex match dereference) is
  modelled as Except.error ().
-/

/-- One result of browser.history.search: a distinct visited page. -/
structure HistoryItem where
  url : String
  title : String
deriving DecidableEq

/-- One result of browser.history.getVisits: a timestamped visit event. -/
structure VisitItem where
  visitTime : Int
  visitId : String
  referringVisitId : String
  transition : String
deriving DecidableEq

/-- The merged HistoryItem/VisitItem object built by getVisitsData. -/
structure VisitRecord where
  url : String
  title : String
  datetime : Int
  id : String
  referringVisitId : String
  transition : String
deriving DecidableEq

/-- The public entry shape produced by visitMapFn (datetime is the Date built
from the numeric timestamp, modelled as the same Int). -/
structure Entry where
  url : String
  title : String
  datetime : Int
deriving DecidableEq

/-- The query object passed to browser.history.search (built at catalog.js
line 115). -/
structure SearchPagesQuery where
  text : String
  startTime : Int
  endTime : Int
  maxResults : Nat
deriving DecidableEq

/-- The external history provider: browser.history.search and
browser.history.getVisits.  search is modelled total; getVisits may fail per
call (the code catches exactly those failures). -/
structure Provider where
  search : SearchPagesQuery → List HistoryItem
  getVisits : String → Except Unit (List VisitItem)

/-- Filter configuration for the noise filter. -/
structure FilterConfig where
  excludeProtocolChange : Bool
  excludeReloadTransition : Bool
deriving DecidableEq

/-- defaultFilterConfig in HistoryVisitFinder. -/
def defaultFilterConfig : FilterConfig :=
  { excludeProtocolChange := true, excludeReloadTransition := true }

/-- maxResultsCeiling = Math.pow(2, 52). -/
def maxResultsCeiling : Nat := 2 ^ 52

/-- defaultText = the empty string. -/
def defaultText : String := ""

/-- defaultStartDatetime = new Date(0), i.e. epoch millisecond 0. -/
def defaultStartDatetime : Int := 0

/-- A character the regex class within urlSplitProtocolRest accepts before
the protocol separator: anything except a colon or a slash. -/
def isProtoChar (c : Char) : Bool := !(c = ':' || c = '/')

/-- A JavaScript regex line terminator, which the dot in the second capture
group of urlSplitProtocolRest does not match. -/
def isLineTerm (c : Char) : Bool :=
  c = '\n' || c = '\r' || c = ' ' || c = ' '

/-- getUrlAfterProtocol: url.match(/(^[^:\/]+:\/\/)(.+)/i)[2].
The anchored match succeeds exactly when the url is a nonempty run of
non-colon non-slash characters, then "://", then at least one non-line-break
character; the second capture group is the maximal run of non-line-break
characters after "://".  When the match fails, url.match returns null and
the [2] dereference throws, modelled here as none (consumers turn it into
Except.error ()). -/
def getUrlAfterProtocol (url : String) : Option String :=
  let cs := url.data
  let proto := cs.takeWhile isProtoChar
  let post := cs.dropWhile isProtoChar
  if proto = [] then none
  else
    match post with
    | ':' :: '/' :: '/' :: rest =>
      let captured := rest.takeWhile (fun c => !isLineTerm c)
      if captured = [] then none else some (String.mk captured)
    | _ => none

/-- visitInDateRange (catalog.js line 128): the visit's time lies in the
inclusive range of the query that was sent to the provider. -/
def visitInDateRange (query : SearchPagesQuery) (visit : VisitItem) : Bool :=
  decide (visit.visitTime ≤ query.endTime) &&
    decide (visit.visitTime ≥ query.startTime)

/-- combineVisitProperties (catalog.js line 137): join one page's url/title
onto one of its visit events. -/
def combineVisitProperties (historyItem : HistoryItem) (visit : VisitItem) :
    VisitRecord :=
  { url := historyItem.url
    title := historyItem.title
    datetime := visit.visitTime
    id := visit.visitId
    referringVisitId := visit.referringVisitId
    transition := visit.transition }

/-- The contribution of one HistoryItem to visitArray (catalog.js lines
147-159): fetch its visits, keep the in-range ones, join the page data on;
a failed fetch is caught and contributes nothing. -/
def pageVisitRecords (p : Provider) (query : SearchPagesQuery)
    (historyItem : HistoryItem) : List VisitRecord :=
  match p.getVisits historyItem.url with
  | Except.error _ => []
  | Except.ok visitItemArray =>
    (visitItemArray.filter (visitInDateRange query)).map
      (combineVisitProperties historyItem)

/-- visitArray after all page promises have settled: the concatenation of
every page's contribution (push order modelled as page order; the array is
sorted immediately afterwards). -/
def collectVisits (p : Provider) (query : SearchPagesQuery) :
    List HistoryItem → List VisitRecord
  | [] => []
  | historyItem :: rest =>
    pageVisitRecords p query historyItem ++ collectVisits p query rest

/-- The ordering used by visitArray.sort((a, b) => b.datetime - a.datetime):
descending datetime. -/
def visitDescRel (a b : VisitRecord) : Prop := b.datetime ≤ a.datetime

instance : DecidableRel visitDescRel :=
  fun a b => inferInstanceAs (Decidable (b.datetime ≤ a.datetime))

instance : IsTotal VisitRecord visitDescRel :=
  ⟨fun a b => le_total b.datetime a.datetime⟩

instance : IsTrans VisitRecord visitDescRel :=
  ⟨fun _ _ _ hab hbc => le_trans hbc hab⟩

/-- visitArray.sort((a, b) => b.datetime - a.datetime): a stable sort into
descending datetime order. -/
def sortVisitsDesc (l : List VisitRecord) : List VisitRecord :=
  List.insertionSort visitDescRel l

/-- The named-parameter object taken by getVisitsData, with every default
already resolved by the caller. -/
structure VisitsQuery where
  text : String
  startDatetime : Int
  endDatetime : Int
  maxVisits : Nat
deriving DecidableEq

/-- The query object getVisitsData builds for the provider (catalog.js line
115): getTime of the Date bounds, maxResults = maxVisits. -/
def toSearchPagesQuery (q : VisitsQuery) : SearchPagesQuery :=
  { text := q.text
    startTime := q.startDatetime
    endTime := q.endDatetime
    maxResults := q.maxVisits }

/-- getVisitsData (catalog.js lines 85-171): search for pages, return null
when there are none, otherwise merge each page's in-window visits (failed
fetches contributing nothing), sort descending by datetime, and truncate to
maxVisits unless maxVisits is the ceiling sentinel. -/
def getVisitsData (p : Provider) (q : VisitsQuery) :
    Option (List VisitRecord) :=
  let query := toSearchPagesQuery q
  let historyItemArray := p.search query
  if historyItemArray.length ≤ 0 then none
  else
    let visitArray := collectVisits p query historyItemArray
    let sorted := sortVisitsDesc visitArray
    some (if q.maxVisits ≠ maxResultsCeiling then sorted.take q.maxVisits
          else sorted)

/-- The predicate returned by getVisitFilterFn together with the indexed
traversal Array.prototype.filter performs, in one recursion.  The second
argument is the element at the previous index of the original array (none at
index 0) - the raw array's previous element, not the previous survivor.  At
index 0 the reload rule applies; at later indices the protocol-change rule
compares the scheme-stripped urls and throws (Except.error) when either url
does not match the protocol regex. -/
def filterVisits (filterConfig : FilterConfig) :
    Option VisitRecord → List VisitRecord → Except Unit (List VisitRecord)
  | _, [] => Except.ok []
  | none, value :: rest =>
    match filterVisits filterConfig (some value) rest with
    | Except.error e => Except.error e
    | Except.ok tail =>
      if filterConfig.excludeReloadTransition && value.transition = "reload"
      then Except.ok tail
      else Except.ok (value :: tail)
  | some prev, value :: rest =>
    if filterConfig.excludeProtocolChange then
      match getUrlAfterProtocol value.url, getUrlAfterProtocol prev.url with
      | some valueRest, some prevRest =>
        match filterVisits filterConfig (some value) rest with
        | Except.error e => Except.error e
        | Except.ok tail =>
          if valueRest = prevRest then Except.ok tail
          else Except.ok (value :: tail)
      | _, _ => Except.error ()
    else
      match filterVisits filterConfig (some value) rest with
      | Except.error e => Except.error e
      | Except.ok tail => Except.ok (value :: tail)

/-- visitMapFn (catalog.js line 196): convert a VisitRecord into the public
Entry shape. -/
def visitMapFn (value : VisitRecord) : Entry :=
  { url := value.url, title := value.title, datetime := value.datetime }

/-- processVisitsData (catalog.js line 205): filter then map. -/
def processVisitsData (visitsData : List VisitRecord)
    (filterConfig : FilterConfig) : Except Unit (List Entry) :=
  match filterVisits filterConfig none visitsData with
  | Except.error e => Except.error e
  | Except.ok filtered => Except.ok (filtered.map visitMapFn)

/-- The named-parameter object taken by searchVisits, with every default
already resolved by the caller. -/
structure SearchVisitsQuery where
  text : String
  startDatetime : Int
  endDatetime : Int
  maxVisits : Nat
  filterConfig : FilterConfig
deriving DecidableEq

/-- The while-loop of searchVisits (catalog.js lines 222-238), with explicit
fuel.  Each iteration asks getVisitsData for the remaining number of visits
over the same window; null ends the loop (returning null only when nothing
was ever stored), otherwise the results are appended and the loop stops once
enough are stored.  none means the fuel ran out before the loop finished. -/
def searchVisitsLoop (p : Provider) (q : SearchVisitsQuery) :
    Nat → List VisitRecord → Option (Option (List VisitRecord))
  | 0, _ => none
  | fuel + 1, storedVisits =>
    if storedVisits.length < q.maxVisits then
      match getVisitsData p
          { text := q.text
            startDatetime := q.startDatetime
            endDatetime := q.endDatetime
            maxVisits := q.maxVisits - storedVisits.length } with
      | none =>
        if storedVisits.length ≤ 0 then some none
        else some (some storedVisits)
      | some visitsData =>
        if q.maxVisits ≤ (storedVisits ++ visitsData).length then
          some (some (storedVisits ++ visitsData))
        else searchVisitsLoop p q fuel (storedVisits ++ visitsData)
    else some (some storedVisits)

/-- searchVisits (catalog.js lines 211-241): run the accumulate loop starting
from an empty store, then apply the filter+map stage.  none = the loop ran
out of fuel; some (Except.error ()) = the filter threw;
some (Except.ok none) = the null "nothing found" sentinel. -/
def searchVisits (p : Provider) (q : SearchVisitsQuery) (fuel : Nat) :
    Option (Except Unit (Option (List Entry))) :=
  match searchVisitsLoop p q fuel [] with
  | none => none
  | some none => some (Except.ok none)
  | some (some storedVisits) =>
    match processVisitsData storedVisits q.filterConfig with
    | Except.error e => some (Except.error e)
    | Except.ok entries => some (Except.ok (some entries))

/-- Construction parameters of HistoryVisitStreamer (catalog.js line 245).
defaultMaxVisits is the default page size used when getNext receives no
argument; the theorems pass the page size explicitly. -/
structure StreamerConfig where
  text : String
  endDatetime : Int
  startDatetime : Int
  defaultMaxVisits : Nat

/-- The mutable state of a HistoryVisitStreamer: the moving cursor and the
reachedEnd flag. -/
structure StreamerState where
  cursorDatetime : Int
  reachedEnd : Bool
deriving DecidableEq

/-- The state just after construction: cursor at endDatetime, not exhausted. -/
def initState (c : StreamerConfig) : StreamerState :=
  { cursorDatetime := c.endDatetime, reachedEnd := false }

/-- Placeholder for reading the last element of a nonempty array
(visits[visits.length - 1]); never reached on an empty page because getNext
checks the length first. -/
def defaultEntry : Entry := { url := "", title := "", datetime := 0 }

/-- updateCursorDatetime (catalog.js lines 256-262): move the cursor to one
millisecond before the final entry of the returned page, and mark the stream
exhausted when that falls before the configured startDatetime. -/
def updateCursorDatetime (c : StreamerConfig) (st : StreamerState)
    (visits : List Entry) : StreamerState :=
  let cursor := (visits.getLastD defaultEntry).datetime - 1
  { cursorDatetime := cursor
    reachedEnd := if cursor < c.startDatetime then true else st.reachedEnd }

/-- getNext (catalog.js lines 264-280).  In the exhausted state it returns
null at once, touching neither the provider nor the fuel.  Otherwise it runs
searchVisits with the cursor as endDatetime; startDatetime and filterConfig
are not supplied, so searchVisits falls back to its defaults (epoch origin
and defaultFilterConfig).  The code then reads visitItems.length without a
null check: when searchVisits returned null this throws a TypeError,
modelled as Except.error (). -/
def getNext (p : Provider) (c : StreamerConfig) (maxVisits : Nat)
    (st : StreamerState) (fuel : Nat) :
    Option (Except Unit (Option (List Entry) × StreamerState)) :=
  if st.reachedEnd then some (Except.ok (none, st))
  else
    match searchVisits p
        { text := c.text
          startDatetime := defaultStartDatetime
          endDatetime := st.cursorDatetime
          maxVisits := maxVisits
          filterConfig := defaultFilterConfig } fuel with
    | none => none
    | some (Except.error e) => some (Except.error e)
    | some (Except.ok none) => some (Except.error ())
    | some (Except.ok (some visitItems)) =>
      if 0 < visitItems.length then
        some (Except.ok (some visitItems, updateCursorDatetime c st visitItems))
      else
        some (Except.ok (none, { cursorDatetime := st.cursorDatetime, reachedEnd := true }))

deriving instance DecidableEq for Except

/-! ### Auxiliary notions used by the theorems -/

/-- The subset of pages whose visit fetch succeeds: failed fetches are the
pages the code catches and drops. -/
def okPages (p : Provider) (pages : List HistoryItem) : List HistoryItem :=
  pages.filter (fun hi =>
    match p.getVisits hi.url with
    | Except.ok _ => true
    | Except.error _ => false)

/-- The searchVisits while-loop never finishes, whatever fuel it is given. -/
def searchVisitsDiverges (p : Provider) (q : SearchVisitsQuery) : Prop :=
  ∀ fuel, searchVisits p q fuel = none

/-- The filter configuration exercising only the protocol-change rule. -/
def protocolOnlyConfig : FilterConfig :=
  { excludeProtocolChange := true, excludeReloadTransition := false }

/-- The Streamer states a consumer can drive a given Streamer into: the
construction state, plus anything a completed getNext call can produce.  A
call that throws leaves the state unchanged, so error results add nothing. -/
inductive Reachable (p : Provider) (c : StreamerConfig) : StreamerState → Prop where
  | init : Reachable p c (initState c)
  | step {st : StreamerState} (n fuel : Nat) {res : Option (List Entry)}
      {st' : StreamerState} : Reachable p c st →
      getNext p c n st fuel = some (Except.ok (res, st')) →
      Reachable p c st'

/-! ### Concrete fixtures

dbProvider builds a provider from an in-memory history database the way a
real browser backend behaves: search returns the pages having at least one
visit inside the requested range, capped at maxResults, and getVisits
returns every stored visit of the url (not restricted to the window —
exactly why getVisitsData re-filters by date).  Providers that deviate from
this honest behaviour are used only where a claim itself quantifies over
arbitrary provider behaviour. -/

def dbSearch (db : List (HistoryItem × List VisitItem))
    (q : SearchPagesQuery) : List HistoryItem :=
  ((db.filter (fun e => e.2.any (visitInDateRange q))).map (fun e => e.1)).take
    q.maxResults

def dbGetVisits (db : List (HistoryItem × List VisitItem)) (url : String) :
    Except Unit (List VisitItem) :=
  match db.find? (fun e => e.1.url = url) with
  | some e => Except.ok e.2
  | none => Except.ok []

def dbProvider (db : List (HistoryItem × List VisitItem)) : Provider :=
  { search := dbSearch db, getVisits := dbGetVisits db }

def itemX : HistoryItem := { url := "http://x.com/", title := "X" }

def visit50 : VisitItem :=
  { visitTime := 50, visitId := "v1", referringVisitId := "v0", transition := "link" }

def itemA : HistoryItem := { url := "http://a.com/", title := "A" }

def itemB : HistoryItem := { url := "http://b.com/", title := "B" }

def visit20 : VisitItem :=
  { visitTime := 20, visitId := "va", referringVisitId := "", transition := "link" }

def visit10 : VisitItem :=
  { visitTime := 10, visitId := "vb", referringVisitId := "", transition := "link" }

/-- History used against C2: a single page whose only visit, at t = 50, lies
before the window the Streamer is configured with. -/
def dbC2 : List (HistoryItem × List VisitItem) := [(itemX, [visit50])]

/-- Streamer window [100, 200], page size 2. -/
def configC2 : StreamerConfig :=
  { text := "", endDatetime := 200, startDatetime := 100, defaultMaxVisits := 2 }

def entryX50 : Entry := { url := "http://x.com/", title := "X", datetime := 50 }

/-- History used against C3/C4: two pages with one visit each at t = 20 and
t = 10. -/
def dbC34 : List (HistoryItem × List VisitItem) :=
  [(itemA, [visit20]), (itemB, [visit10])]

/-- Streamer window [0, 100], page size 3. -/
def configC3 : StreamerConfig :=
  { text := "", endDatetime := 100, startDatetime := 0, defaultMaxVisits := 3 }

def entryA20 : Entry := { url := "http://a.com/", title := "A", datetime := 20 }

def entryB10 : Entry := { url := "http://b.com/", title := "B", datetime := 10 }

def recA20 : VisitRecord :=
  { url := "http://a.com/", title := "A", datetime := 20, id := "va",
    referringVisitId := "", transition := "link" }

def recB10 : VisitRecord :=
  { url := "http://b.com/", title := "B", datetime := 10, id := "vb",
    referringVisitId := "", transition := "link" }

/-- Streamer configuration used against C1 (the provider is an empty
history). -/
def configC1 : StreamerConfig :=
  { text := "", endDatetime := 200, startDatetime := 0, defaultMaxVisits := 100 }

def itemC : HistoryItem := { url := "http://c.com/", title := "C" }

def visit500 : VisitItem :=
  { visitTime := 500, visitId := "vc", referringVisitId := "", transition := "link" }

/-- A provider that returns one page for every search but whose visits all
lie at t = 500: against a window ending at 100 every getVisitsData call
yields the non-null empty list.  C5 quantifies over arbitrary provider
behaviour, which this instantiates. -/
def providerC5 : Provider :=
  { search := fun _ => [itemC], getVisits := fun _ => Except.ok [visit500] }

def queryC5 : SearchVisitsQuery :=
  { text := "", startDatetime := 0, endDatetime := 100, maxVisits := 1,
    filterConfig := defaultFilterConfig }

/-- A provider with an empty history: every search returns no pages. -/
def emptyProvider : Provider :=
  { search := fun _ => [], getVisits := fun _ => Except.ok [] }

def queryC5w : SearchVisitsQuery :=
  { text := "", startDatetime := 0, endDatetime := 100, maxVisits := 2,
    filterConfig := defaultFilterConfig }

def itemR : HistoryItem := { url := "http://r.com/", title := "R" }

def visitR150 : VisitItem :=
  { visitTime := 150, visitId := "vr", referringVisitId := "", transition := "reload" }

/-- History whose only in-window visit is a reload, so the filtered page is
empty and getNext reports exhaustion from the ACTIVE state. -/
def dbC6 : List (HistoryItem × List VisitItem) := [(itemR, [visitR150])]

def configC6 : StreamerConfig :=
  { text := "", endDatetime := 200, startDatetime := 0, defaultMaxVisits := 1 }

def recReloadA : VisitRecord :=
  { url := "http://ra.com/", title := "RA", datetime := 5, id := "",
    referringVisitId := "", transition := "reload" }

def recReloadB : VisitRecord :=
  { url := "http://rb.com/", title := "RB", datetime := 4, id := "",
    referringVisitId := "", transition := "reload" }

def recHttpY : VisitRecord :=
  { url := "http://y.com/p", title := "Y", datetime := 300, id := "p1",
    referringVisitId := "", transition := "link" }

def recHttpsY : VisitRecord :=
  { url := "https://y.com/p", title := "Y", datetime := 299, id := "p2",
    referringVisitId := "", transition := "link" }

def itemOk8 : HistoryItem := { url := "http://ok8.com/", title := "OK" }

def itemBad8 : HistoryItem := { url := "http://bad8.com/", title := "BAD" }

def visit150 : VisitItem :=
  { visitTime := 150, visitId := "v8", referringVisitId := "", transition := "link" }

/-- A provider with two pages of which the second one's visit fetch fails. -/
def providerC8 : Provider :=
  { search := fun _ => [itemOk8, itemBad8]
    getVisits := fun url =>
      if url = "http://ok8.com/" then Except.ok [visit150] else Except.error () }

def queryC8 : VisitsQuery :=
  { text := "", startDatetime := 0, endDatetime := 200, maxVisits := 5 }

def rec150 : VisitRecord :=
  { url := "http://ok8.com/", title := "OK", datetime := 150, id := "v8",
    referringVisitId := "", transition := "link" }

def queryC9 : VisitsQuery :=
  { text := "", startDatetime := 0, endDatetime := 100, maxVisits := 1 }

def recBad10 : VisitRecord :=
  { url := "about:blank", title := "", datetime := 1, id := "",
    referringVisitId := "", transition := "link" }

def recGood10 : VisitRecord :=
  { url := "http://g.com/", title := "G", datetime := 2, id := "",
    referringVisitId := "", transition := "link" }

/-! ### Helper lemmas -/

theorem mem_collectVisits {p : Provider} {query : SearchPagesQuery}
    {pages : List HistoryItem} {r : VisitRecord}
    (h : r ∈ collectVisits p query pages) :
    ∃ hi ∈ pages, r ∈ pageVisitRecords p query hi := by
  induction pages with
  | nil => simp [collectVisits] at h
  | cons hi rest ih =>
    simp only [collectVisits, List.mem_append] at h
    rcases h with h | h
    · exact ⟨hi, by simp, h⟩
    · obtain ⟨hj, hjm, hjr⟩ := ih h
      exact ⟨hj, by simp [hjm], hjr⟩

theorem pageVisitRecords_bound {p : Provider} {query : SearchPagesQuery}
    {hi : HistoryItem} {r : VisitRecord}
    (h : r ∈ pageVisitRecords p query hi) :
    query.startTime ≤ r.datetime ∧ r.datetime ≤ query.endTime := by
  unfold pageVisitRecords at h
  cases hv : p.getVisits hi.url with
  | error e => rw [hv] at h; simp at h
  | ok vs =>
    rw [hv] at h
    simp only [List.mem_map, List.mem_filter] at h
    obtain ⟨v, ⟨hvm, hrange⟩, hcomb⟩ := h
    simp only [visitInDateRange, Bool.and_eq_true, decide_eq_true_eq] at hrange
    subst hcomb
    exact ⟨hrange.2, hrange.1⟩

theorem mem_sortVisitsDesc {l : List VisitRecord} {r : VisitRecord} :
    r ∈ sortVisitsDesc l ↔ r ∈ l :=
  (List.perm_insertionSort visitDescRel l).mem_iff

theorem getVisitsData_mem_bound {p : Provider} {q : VisitsQuery}
    {l : List VisitRecord} {r : VisitRecord}
    (h : getVisitsData p q = some l) (hr : r ∈ l) :
    q.startDatetime ≤ r.datetime ∧ r.datetime ≤ q.endDatetime := by
  simp only [getVisitsData] at h
  split at h
  · exact absurd h (by simp)
  · rw [Option.some.injEq] at h
    subst h
    have hmem : r ∈ sortVisitsDesc (collectVisits p (toSearchPagesQuery q)
        (p.search (toSearchPagesQuery q))) := by
      by_cases hc : q.maxVisits ≠ maxResultsCeiling
      · rw [if_pos hc] at hr
        exact List.take_subset _ _ hr
      · rw [if_neg hc] at hr
        exact hr
    obtain ⟨hi, _, hrec⟩ := mem_collectVisits (mem_sortVisitsDesc.mp hmem)
    exact pageVisitRecords_bound hrec

theorem searchVisitsLoop_mem_bound {p : Provider} {q : SearchVisitsQuery} :
    ∀ {fuel : Nat} {stored out : List VisitRecord},
      (∀ r ∈ stored, q.startDatetime ≤ r.datetime ∧ r.datetime ≤ q.endDatetime) →
      searchVisitsLoop p q fuel stored = some (some out) →
      ∀ r ∈ out, q.startDatetime ≤ r.datetime ∧ r.datetime ≤ q.endDatetime := by
  intro fuel
  induction fuel with
  | zero => intro stored out hstored h; simp [searchVisitsLoop] at h
  | succ fuel ih =>
    intro stored out hstored h
    rw [searchVisitsLoop] at h
    split at h
    · split at h
      next hgvd =>
        split at h
        · simp at h
        · rw [Option.some.injEq, Option.some.injEq] at h
          subst h
          exact hstored
      next visitsData hgvd =>
        split at h
        · rw [Option.some.injEq, Option.some.injEq] at h
          subst h
          intro r hr
          rcases List.mem_append.mp hr with h1 | h2
          · exact hstored r h1
          · exact getVisitsData_mem_bound hgvd h2
        · refine ih ?_ h
          intro r hr
          rcases List.mem_append.mp hr with h1 | h2
          · exact hstored r h1
          · exact getVisitsData_mem_bound hgvd h2
    · rw [Option.some.injEq, Option.some.injEq] at h
      subst h
      exact hstored

theorem filterVisits_subset {cfg : FilterConfig} :
    ∀ {l : List VisitRecord} {prev : Option VisitRecord} {l' : List VisitRecord},
      filterVisits cfg prev l = Except.ok l' → ∀ x ∈ l', x ∈ l := by
  intro l
  induction l with
  | nil =>
    intro prev l' h x hx
    rw [filterVisits] at h
    rw [Except.ok.injEq] at h
    subst h
    simp at hx
  | cons v rest ih =>
    intro prev l' h x hx
    cases prev with
    | none =>
      rw [filterVisits] at h
      split at h
      · cases h
      next tail hrec =>
        split at h <;> rw [Except.ok.injEq] at h <;> subst h
        · exact List.mem_cons_of_mem _ (ih hrec x hx)
        · rcases List.mem_cons.mp hx with rfl | hx'
          · exact List.mem_cons_self _ _
          · exact List.mem_cons_of_mem _ (ih hrec x hx')
    | some pv =>
      rw [filterVisits] at h
      split at h
      · split at h
        · split at h
          · cases h
          next tail hrec =>
            split at h <;> rw [Except.ok.injEq] at h <;> subst h
            · exact List.mem_cons_of_mem _ (ih hrec x hx)
            · rcases List.mem_cons.mp hx with rfl | hx'
              · exact List.mem_cons_self _ _
              · exact List.mem_cons_of_mem _ (ih hrec x hx')
        · cases h
      · split at h
        · cases h
        next tail hrec =>
          rw [Except.ok.injEq] at h
          subst h
          rcases List.mem_cons.mp hx with rfl | hx'
          · exact List.mem_cons_self _ _
          · exact List.mem_cons_of_mem _ (ih hrec x hx')

theorem processVisitsData_mem {l : List VisitRecord} {cfg : FilterConfig}
    {es : List Entry} (h : processVisitsData l cfg = Except.ok es)
    {e : Entry} (he : e ∈ es) : ∃ r ∈ l, e = visitMapFn r := by
  unfold processVisitsData at h
  cases hf : filterVisits cfg none l with
  | error e' => rw [hf] at h; cases h
  | ok filtered =>
    rw [hf] at h
    rw [Except.ok.injEq] at h
    subst h
    obtain ⟨r, hrm, hre⟩ := List.mem_map.mp he
    exact ⟨r, filterVisits_subset hf r hrm, hre.symm⟩

theorem searchVisits_mem_bound {p : Provider} {q : SearchVisitsQuery}
    {fuel : Nat} {es : List Entry}
    (h : searchVisits p q fuel = some (Except.ok (some es)))
    {e : Entry} (he : e ∈ es) :
    q.startDatetime ≤ e.datetime ∧ e.datetime ≤ q.endDatetime := by
  unfold searchVisits at h
  split at h
  · cases h
  · cases h
  next stored hloop =>
    split at h
    · cases h
    next entries hp =>
      simp only [Option.some.injEq, Except.ok.injEq] at h
      subst h
      obtain ⟨r, hrm, hre⟩ := processVisitsData_mem hp he
      have hb := searchVisitsLoop_mem_bound (by simp) hloop r hrm
      rw [hre]
      exact hb

theorem getLastD_mem : ∀ (l : List Entry), l ≠ [] → ∀ d, l.getLastD d ∈ l
  | [x], _, d => by simp [List.getLastD]
  | x :: y :: t, _, d => by
    rw [List.getLastD_cons]
    exact List.mem_cons_of_mem _ (getLastD_mem (y :: t) (by simp) x)

theorem getNext_some_page {p : Provider} {c : StreamerConfig} {n : Nat}
    {st : StreamerState} {fuel : Nat} {page : List Entry}
    {st' : StreamerState}
    (h : getNext p c n st fuel = some (Except.ok (some page, st'))) :
    st.reachedEnd = false ∧
    (∀ e ∈ page, defaultStartDatetime ≤ e.datetime ∧
      e.datetime ≤ st.cursorDatetime) ∧
    st' = updateCursorDatetime c st page := by
  unfold getNext at h
  split at h
  next hre =>
    simp only [Option.some.injEq, Except.ok.injEq, Prod.mk.injEq] at h
    exact absurd h.1 (by simp)
  next hre =>
    refine ⟨by simpa using hre, ?_⟩
    split at h
    · cases h
    · cases h
    · cases h
    next visitItems hs =>
      split at h
      · simp only [Option.some.injEq, Except.ok.injEq, Prod.mk.injEq,
          Option.some.injEq] at h
        obtain ⟨hpage, hst⟩ := h
        subst hpage
        exact ⟨fun e he => searchVisits_mem_bound hs he, hst.symm⟩
      · simp only [Option.some.injEq, Except.ok.injEq, Prod.mk.injEq] at h
        exact absurd h.1 (by simp)

theorem getNext_cursor_mono {p : Provider} {c : StreamerConfig} {n : Nat}
    {st : StreamerState} {fuel : Nat} {res : Option (List Entry)}
    {st' : StreamerState}
    (h : getNext p c n st fuel = some (Except.ok (res, st'))) :
    st'.cursorDatetime ≤ st.cursorDatetime := by
  cases res with
  | some page =>
    obtain ⟨-, hbound, hst⟩ := getNext_some_page h
    have hne : page ≠ [] := by
      unfold getNext at h
      split at h
      · simp only [Option.some.injEq, Except.ok.injEq, Prod.mk.injEq] at h
        exact absurd h.1 (by simp)
      · split at h
        · cases h
        · cases h
        · cases h
        next visitItems hs =>
          split at h
          next hpos =>
            simp only [Option.some.injEq, Except.ok.injEq, Prod.mk.injEq,
              Option.some.injEq] at h
            intro hnil
            rw [h.1, hnil] at hpos
            simp at hpos
          · simp only [Option.some.injEq, Except.ok.injEq, Prod.mk.injEq] at h
            exact absurd h.1 (by simp)
    have hlast := hbound _ (getLastD_mem page hne defaultEntry)
    subst hst
    simp only [updateCursorDatetime]
    omega
  | none =>
    unfold getNext at h
    split at h
    · simp only [Option.some.injEq, Except.ok.injEq, Prod.mk.injEq] at h
      rw [← h.2]
    · split at h
      · cases h
      · cases h
      · cases h
      · split at h
        · simp only [Option.some.injEq, Except.ok.injEq, Prod.mk.injEq] at h
          exact absurd h.1 (by simp)
        · simp only [Option.some.injEq, Except.ok.injEq, Prod.mk.injEq] at h
          rw [← h.2]

theorem reachable_cursor_le {p : Provider} {c : StreamerConfig}
    {st : StreamerState} (h : Reachable p c st) :
    st.cursorDatetime ≤ c.endDatetime := by
  induction h with
  | init => exact le_refl _
  | step n fuel hr hg ih => exact le_trans (getNext_cursor_mono hg) ih

theorem searchVisitsLoop_stuck {p : Provider} {q : SearchVisitsQuery}
    (hpos : 0 < q.maxVisits)
    (hempty : getVisitsData p
      { text := q.text, startDatetime := q.startDatetime,
        endDatetime := q.endDatetime, maxVisits := q.maxVisits } = some []) :
    ∀ fuel, searchVisitsLoop p q fuel [] = none := by
  intro fuel
  induction fuel with
  | zero => rfl
  | succ fuel ih =>
    rw [searchVisitsLoop]
    rw [if_pos (by simpa using hpos)]
    simp only [List.length_nil, Nat.sub_zero]
    rw [hempty]
    simp only [List.append_nil, List.length_nil]
    rw [if_neg (by omega)]
    exact ih

theorem searchVisitsLoop_progress {p : Provider} (q : SearchVisitsQuery)
    (hne : ∀ q', getVisitsData p q' ≠ some []) :
    ∀ (fuel : Nat) (stored : List VisitRecord),
      q.maxVisits - stored.length < fuel →
      searchVisitsLoop p q fuel stored ≠ none := by
  intro fuel
  induction fuel with
  | zero => intro stored h; omega
  | succ fuel ih =>
    intro stored hf
    rw [searchVisitsLoop]
    split
    next hlt =>
      split
      · split <;> simp
      next vd hg =>
        have hvdne : vd ≠ [] := fun hnil => hne _ (hnil ▸ hg)
        have hpos : 0 < vd.length := List.length_pos.mpr hvdne
        split
        · simp
        next hle =>
          apply ih
          rw [List.length_append]
          omega
    · simp

theorem filterVisits_prev_congr (cfg : FilterConfig) {a b : VisitRecord}
    (h : getUrlAfterProtocol a.url = getUrlAfterProtocol b.url) :
    ∀ l, filterVisits cfg (some a) l = filterVisits cfg (some b) l := by
  intro l
  cases l with
  | nil => rfl
  | cons v rest =>
    simp only [filterVisits]
    rw [h]

theorem filterVisits_proto_idem :
    ∀ (rest : List VisitRecord) (a : VisitRecord) (r' : List VisitRecord),
      filterVisits protocolOnlyConfig (some a) rest = Except.ok r' →
      filterVisits protocolOnlyConfig (some a) r' = Except.ok r' := by
  intro rest
  induction rest with
  | nil =>
    intro a r' h
    rw [filterVisits] at h
    rw [Except.ok.injEq] at h
    subst h
    rfl
  | cons v vs ih =>
    intro a r' h
    rw [filterVisits] at h
    rw [if_pos (show protocolOnlyConfig.excludeProtocolChange = true from rfl)] at h
    split at h
    next s1 s2 hv ha =>
      split at h
      · cases h
      next tail hrec =>
        split at h
        next hs =>
          rw [Except.ok.injEq] at h
          subst h
          have h2 := filterVisits_prev_congr protocolOnlyConfig
            (show getUrlAfterProtocol v.url = getUrlAfterProtocol a.url by
              rw [hv, ha, hs]) tail
          rw [← h2]
          exact ih v tail hrec
        next hs =>
          rw [Except.ok.injEq] at h
          subst h
          have htail := ih v tail hrec
          rw [filterVisits]
          rw [if_pos (show protocolOnlyConfig.excludeProtocolChange = true from rfl)]
          rw [hv, ha]
          simp [htail, hs]
    next => cases h

theorem collectVisits_okPages (p : Provider) (query : SearchPagesQuery) :
    ∀ pages, collectVisits p query (okPages p pages) =
      collectVisits p query pages := by
  intro pages
  induction pages with
  | nil => rfl
  | cons hi rest ih =>
    cases hv : p.getVisits hi.url with
    | ok vs =>
      have hok : okPages p (hi :: rest) = hi :: okPages p rest := by
        simp only [okPages, List.filter]
        rw [hv]
      rw [hok]
      simp only [collectVisits]
      rw [ih]
    | error e =>
      have hok : okPages p (hi :: rest) = okPages p rest := by
        simp only [okPages, List.filter]
        rw [hv]
      have hnil : pageVisitRecords p query hi = [] := by
        unfold pageVisitRecords
        rw [hv]
      rw [hok, ih]
      simp only [collectVisits, hnil, List.nil_append]

theorem collectVisits_eq_nil {p : Provider} {query : SearchPagesQuery} :
    ∀ {pages : List HistoryItem},
      (∀ hi ∈ pages, ∀ vs, p.getVisits hi.url = Except.ok vs →
        vs.filter (visitInDateRange query) = []) →
      collectVisits p query pages = [] := by
  intro pages
  induction pages with
  | nil => intro _; rfl
  | cons hi rest ih =>
    intro hall
    have hhead : pageVisitRecords p query hi = [] := by
      unfold pageVisitRecords
      cases hv : p.getVisits hi.url with
      | error e => rfl
      | ok vs =>
        show (vs.filter (visitInDateRange query)).map (combineVisitProperties hi) = []
        rw [hall hi (by simp) vs hv]
        rfl
    simp only [collectVisits, hhead, List.nil_append]
    exact ih (fun hj hjm vs hv => hall hj (by simp [hjm]) vs hv)

theorem filterVisits_error_of_bad {cfg : FilterConfig}
    (hp : cfg.excludeProtocolChange = true) :
    ∀ (l : List VisitRecord) (a : VisitRecord),
      ((∃ v ∈ l, getUrlAfterProtocol v.url = none) ∨
        (getUrlAfterProtocol a.url = none ∧ l ≠ [])) →
      filterVisits cfg (some a) l = Except.error () := by
  intro l
  induction l with
  | nil =>
    intro a h
    rcases h with ⟨v, hv, _⟩ | ⟨_, hne⟩
    · simp at hv
    · simp at hne
  | cons v rest ih =>
    intro a h
    rw [filterVisits]
    rw [if_pos hp]
    cases hv : getUrlAfterProtocol v.url with
    | none => rfl
    | some s1 =>
      cases ha : getUrlAfterProtocol a.url with
      | none => rfl
      | some s2 =>
        have hrest : ∃ w ∈ rest, getUrlAfterProtocol w.url = none := by
          rcases h with ⟨w, hw, hwn⟩ | ⟨hpn, _⟩
          · rcases List.mem_cons.mp hw with rfl | hw'
            · rw [hv] at hwn; cases hwn
            · exact ⟨w, hw', hwn⟩
          · rw [ha] at hpn; cases hpn
        rw [ih v (Or.inl hrest)]

/-! ### Claims -/

/-- C1 (code bug): the claim says that when searchVisits returns the null
sentinel (or an empty list) getNext transitions to EXHAUSTED and returns
null, and that on a window with zero matching visits the first getNext call
returns null rather than failing.  On an empty history the page-search
returns no pages, searchVisits returns the null sentinel, and getNext reads
visitItems.length from that null without a check: the call throws a
TypeError (the promise rejects) instead of returning null.  This theorem
evaluates the code at that failing input. -/
theorem c1_getNext_null_deref :
    getNext (dbProvider []) configC1 100 (initState configC1) 1 =
      some (Except.error ()) := rfl

/-- C2 (counterexample): getNext builds its query without a startDatetime,
so searchVisits falls back to the epoch origin; a Streamer configured with
window [100, 200] over a history whose only visit is at t = 50 returns that
entry, whose datetime lies outside the configured window. -/
theorem c2_counterexample :
    getNext (dbProvider dbC2) configC2 2 (initState configC2) 3 =
      some (Except.ok (some [entryX50],
        { cursorDatetime := 49, reachedEnd := true })) ∧
    entryX50.datetime < configC2.startDatetime := ⟨rfl, by decide⟩

/-- C2 (amended): every Entry of every page produced by a reachable Streamer
state satisfies 0 ≤ datetime ≤ endDatetime: the upper bound is the
configured endDatetime, but the lower bound is only the epoch origin (the
hard-coded default startDatetime of the query getNext issues), not the
Streamer's configured startDatetime. -/
theorem c2_window_upper_bound (p : Provider) (c : StreamerConfig)
    (st : StreamerState) (n fuel : Nat) (page : List Entry)
    (st' : StreamerState) (e : Entry) (hreach : Reachable p c st)
    (h : getNext p c n st fuel = some (Except.ok (some page, st')))
    (he : e ∈ page) :
    defaultStartDatetime ≤ e.datetime ∧ e.datetime ≤ c.endDatetime := by
  obtain ⟨-, hbound, -⟩ := getNext_some_page h
  obtain ⟨h1, h2⟩ := hbound e he
  exact ⟨h1, le_trans h2 (reachable_cursor_le hreach)⟩

/-- C2 witness: the run of c2 on concrete data, at the entry with t = 50. -/
theorem c2_witness :
    defaultStartDatetime ≤ entryX50.datetime ∧
      entryX50.datetime ≤ configC2.endDatetime :=
  c2_window_upper_bound (dbProvider dbC2) configC2 (initState configC2) 2 3
    [entryX50] { cursorDatetime := 49, reachedEnd := true } entryX50
    Reachable.init rfl (by simp)

/-- C3 (counterexample): the searchVisits loop re-queries the same window,
so a page can repeat entries out of order; the cursor is then computed from
the final array element, which need not be the oldest.  Here page one is
[20, 10, 20] and page two is [10]: the entry at t = 10 of the later page is
not strictly less than every entry of the earlier page, which contains
t = 10 itself. -/
theorem c3_counterexample :
    getNext (dbProvider dbC34) configC3 3 (initState configC3) 5 =
      some (Except.ok (some [entryA20, entryB10, entryA20],
        { cursorDatetime := 19, reachedEnd := false })) ∧
    getNext (dbProvider dbC34) configC3 3
        { cursorDatetime := 19, reachedEnd := false } 5 =
      some (Except.ok (some [entryB10],
        { cursorDatetime := 9, reachedEnd := false })) ∧
    entryB10 ∈ [entryA20, entryB10, entryA20] ∧
    entryB10 ∈ [entryB10] ∧
    ¬ entryB10.datetime < entryB10.datetime :=
  ⟨rfl, rfl, by decide, by decide, by decide⟩

/-- C3 (amended): for two consecutive non-null pages of one Streamer, every
entry of the later page is strictly older than the datetime of the earlier
page's final (last-position) entry, from which the cursor was computed as
datetime minus one millisecond.  Strict decrease against every entry of the
earlier page holds only when that page is sorted, which searchVisits does
not guarantee. -/
theorem c3_pages_decrease (p : Provider) (c : StreamerConfig)
    (n1 n2 fuel1 fuel2 : Nat) (st st' st'' : StreamerState)
    (page1 page2 : List Entry) (e : Entry)
    (h1 : getNext p c n1 st fuel1 = some (Except.ok (some page1, st')))
    (h2 : getNext p c n2 st' fuel2 = some (Except.ok (some page2, st'')))
    (he : e ∈ page2) :
    e.datetime < (page1.getLastD defaultEntry).datetime := by
  obtain ⟨-, -, hupd⟩ := getNext_some_page h1
  obtain ⟨-, hbound, -⟩ := getNext_some_page h2
  have hb := (hbound e he).2
  rw [hupd] at hb
  simp only [updateCursorDatetime] at hb
  omega

/-- C3 witness: two consecutive singleton pages [20] then [10]. -/
theorem c3_witness :
    entryB10.datetime < (List.getLastD [entryA20] defaultEntry).datetime :=
  c3_pages_decrease (dbProvider dbC34) configC3 1 1 5 5 (initState configC3)
    { cursorDatetime := 19, reachedEnd := false }
    { cursorDatetime := 9, reachedEnd := false }
    [entryA20] [entryB10] entryB10 rfl rfl (by simp)

/-- C4 (counterexample): one searchVisits call over a window holding visits
at t = 20 and t = 10 with maxCount 3 re-queries the same window and returns
[20, 10, 20]: neither strictly sorted descending nor duplicate-free. -/
theorem c4_counterexample :
    searchVisits (dbProvider dbC34)
      { text := "", startDatetime := 0, endDatetime := 100, maxVisits := 3,
        filterConfig := defaultFilterConfig } 5 =
      some (Except.ok (some [entryA20, entryB10, entryA20])) ∧
    ¬ List.Pairwise (fun a b : Entry => b.datetime < a.datetime)
      [entryA20, entryB10, entryA20] ∧
    ¬ List.Nodup [entryA20, entryB10, entryA20] :=
  ⟨rfl, by decide, by decide⟩

/-- C4 (amended): each single getVisitsData call returns a list sorted in
non-increasing (not necessarily strict) datetime order; the strict,
duplicate-free version fails for searchVisits because its retry loop
accumulates over the same window. -/
theorem c4_getVisitsData_sorted (p : Provider) (q : VisitsQuery)
    (l : List VisitRecord) (h : getVisitsData p q = some l) :
    List.Pairwise visitDescRel l := by
  simp only [getVisitsData] at h
  split at h
  · cases h
  · rw [Option.some.injEq] at h
    subst h
    split
    · exact List.Pairwise.sublist (List.take_sublist _ _)
        (List.sorted_insertionSort visitDescRel _)
    · exact List.sorted_insertionSort visitDescRel _

/-- C4 witness: a concrete two-record result, sorted non-increasingly. -/
theorem c4_witness : List.Pairwise visitDescRel [recA20, recB10] :=
  c4_getVisitsData_sorted (dbProvider dbC34)
    { text := "", startDatetime := 0, endDatetime := 100, maxVisits := 5 }
    [recA20, recB10] rfl

/-- C5 (counterexample): the claim quantifies over every provider behaviour,
but when the provider returns a page whose visits all fall outside the
window, getVisitsData returns the non-null empty list, the loop stores
nothing and re-queries forever: no amount of fuel makes searchVisits
return. -/
theorem c5_counterexample : searchVisitsDiverges providerC5 queryC5 := by
  intro fuel
  unfold searchVisits
  rw [searchVisitsLoop_stuck (show 0 < queryC5.maxVisits by decide)
    (show getVisitsData providerC5
      { text := queryC5.text, startDatetime := queryC5.startDatetime,
        endDatetime := queryC5.endDatetime, maxVisits := queryC5.maxVisits } =
      some [] from rfl) fuel]

/-- C5 (amended): the retry/accumulate loop terminates for every provider
behaviour in which no getVisitsData call yields a non-null empty list (each
call either reports the nothing-left sentinel or contributes at least one
result): maxCount + 1 iterations always suffice. -/
theorem c5_termination (p : Provider) (q : SearchVisitsQuery)
    (hne : ∀ q', getVisitsData p q' ≠ some []) :
    searchVisits p q (q.maxVisits + 1) ≠ none := by
  have hloop := searchVisitsLoop_progress q hne (q.maxVisits + 1) []
    (by simp only [List.length_nil]; omega)
  unfold searchVisits
  cases hl : searchVisitsLoop p q (q.maxVisits + 1) [] with
  | none => exact absurd hl hloop
  | some o =>
    cases o with
    | none => simp
    | some storedVisits =>
      cases hp : processVisitsData storedVisits q.filterConfig <;> simp [hp]

/-- C5 witness: over an empty history every getVisitsData call returns the
null sentinel, so the loop finishes within maxCount + 1 iterations. -/
theorem c5_witness : searchVisits emptyProvider queryC5w
    (queryC5w.maxVisits + 1) ≠ none :=
  c5_termination emptyProvider queryC5w
    (fun q' h => by simp [getVisitsData, emptyProvider] at h)

/-- C6 (confirmed): whenever a getNext call completes with a null page the
resulting state has reachedEnd set, and from any state with reachedEnd set
getNext returns null with the same state for every provider and every fuel
(zero included), so no provider call is made and the stream never
resumes. -/
theorem c6_exhausted_terminal :
    (∀ (p : Provider) (c : StreamerConfig) (n : Nat) (st : StreamerState)
      (fuel : Nat) (st' : StreamerState),
      getNext p c n st fuel = some (Except.ok (none, st')) →
      st'.reachedEnd = true) ∧
    (∀ (p : Provider) (c : StreamerConfig) (n : Nat) (st : StreamerState)
      (fuel : Nat), st.reachedEnd = true →
      getNext p c n st fuel = some (Except.ok (none, st))) := by
  constructor
  · intro p c n st fuel st' h
    unfold getNext at h
    split at h
    next hre =>
      injection h with h1
      injection h1 with h2
      injection h2 with h3 h4
      rw [← h4]
      exact hre
    · split at h
      · cases h
      · cases h
      · cases h
      · split at h
        · injection h with h1
          injection h1 with h2
          injection h2 with h3 h4
          cases h3
        · injection h with h1
          injection h1 with h2
          injection h2 with h3 h4
          rw [← h4]
  · intro p c n st fuel h
    unfold getNext
    rw [if_pos h]

/-- C6 witness: a Streamer that has just reported exhaustion (its only
in-window visit is a reload, so the first page filters to empty) is in the
reachedEnd state, and getNext from that state returns null at once. -/
theorem c6_witness :
    (StreamerState.mk 200 true).reachedEnd = true ∧
    getNext (dbProvider dbC6) configC6 1 { cursorDatetime := 200, reachedEnd := true } 1 =
      some (Except.ok (none, { cursorDatetime := 200, reachedEnd := true })) := by
  constructor
  · exact c6_exhausted_terminal.1 (dbProvider dbC6) configC6 1
      (initState configC6) 1 { cursorDatetime := 200, reachedEnd := true } rfl
  · exact c6_exhausted_terminal.2 (dbProvider dbC6) configC6 1
      { cursorDatetime := 200, reachedEnd := true } 1 rfl

/-- C7 (counterexample): with the default filterConfig the filter is not
idempotent: on two reload visits with different urls the first pass drops
the head by the reload rule and keeps the second record, which is a reload
itself; the second pass, where that record now sits at index 0, drops it
too. -/
theorem c7_counterexample :
    filterVisits defaultFilterConfig none [recReloadA, recReloadB] =
      Except.ok [recReloadB] ∧
    filterVisits defaultFilterConfig none [recReloadB] ≠
      Except.ok [recReloadB] := ⟨rfl, by decide⟩

/-- C7 (amended): the protocol-change rule alone is idempotent: with
excludeProtocolChange and without excludeReloadTransition, re-filtering a
filtered list drops nothing, because consecutive survivors always have
distinct scheme-stripped urls. -/
theorem c7_protocol_filter_idempotent (l l' : List VisitRecord)
    (h : filterVisits protocolOnlyConfig none l = Except.ok l') :
    filterVisits protocolOnlyConfig none l' = Except.ok l' := by
  cases l with
  | nil =>
    rw [filterVisits] at h
    rw [Except.ok.injEq] at h
    subst h
    rfl
  | cons x rest =>
    rw [filterVisits] at h
    split at h
    · cases h
    next tail hrec =>
      rw [if_neg (by simp [protocolOnlyConfig])] at h
      rw [Except.ok.injEq] at h
      subst h
      rw [filterVisits]
      simp only [filterVisits_proto_idem rest x tail hrec]
      rw [if_neg (by simp [protocolOnlyConfig])]

/-- C7 witness: the http/https pair of Scenario B filters to its first
record, and filtering again leaves that output unchanged. -/
theorem c7_witness :
    filterVisits protocolOnlyConfig none [recHttpY] = Except.ok [recHttpY] :=
  c7_protocol_filter_idempotent [recHttpY, recHttpsY] [recHttpY] rfl

/-- C8 (confirmed): whenever the page-search returns at least one page,
getVisitsData resolves (never rejects) and its value is exactly the sorted,
truncated merge of the in-window visits of the pages whose visit fetch
succeeded: pages whose fetch failed contribute nothing. -/
theorem c8_partial_failure (p : Provider) (q : VisitsQuery)
    (hne : p.search (toSearchPagesQuery q) ≠ []) :
    getVisitsData p q =
      some (if q.maxVisits ≠ maxResultsCeiling
        then (sortVisitsDesc (collectVisits p (toSearchPagesQuery q)
          (okPages p (p.search (toSearchPagesQuery q))))).take q.maxVisits
        else sortVisitsDesc (collectVisits p (toSearchPagesQuery q)
          (okPages p (p.search (toSearchPagesQuery q))))) := by
  rw [collectVisits_okPages]
  simp only [getVisitsData]
  rw [if_neg (fun hle => hne (List.length_eq_zero.mp (Nat.le_zero.mp hle)))]

/-- C8 witness: two pages of which the second's visit fetch fails; the call
resolves with the surviving page's in-window visits. -/
theorem c8_witness :
    getVisitsData providerC8 queryC8 =
      some (if queryC8.maxVisits ≠ maxResultsCeiling
        then (sortVisitsDesc (collectVisits providerC8
          (toSearchPagesQuery queryC8) (okPages providerC8
          (providerC8.search (toSearchPagesQuery queryC8))))).take
          queryC8.maxVisits
        else sortVisitsDesc (collectVisits providerC8
          (toSearchPagesQuery queryC8) (okPages providerC8
          (providerC8.search (toSearchPagesQuery queryC8))))) :=
  c8_partial_failure providerC8 queryC8 (by decide)

/-- C9 (confirmed): getVisitsData returns the null sentinel exactly when the
page-search returns zero pages; with at least one page whose visit events
all fall outside the window it returns the non-null empty list instead. -/
theorem c9_null_iff_no_pages (p : Provider) (q : VisitsQuery) :
    (getVisitsData p q = none ↔ p.search (toSearchPagesQuery q) = []) ∧
    (p.search (toSearchPagesQuery q) ≠ [] →
      (∀ hi ∈ p.search (toSearchPagesQuery q), ∀ vs,
        p.getVisits hi.url = Except.ok vs →
        vs.filter (visitInDateRange (toSearchPagesQuery q)) = []) →
      getVisitsData p q = some []) := by
  constructor
  · simp only [getVisitsData]
    split
    next hle =>
      constructor
      · intro _
        exact List.length_eq_zero.mp (Nat.le_zero.mp hle)
      · intro _
        rfl
    next hgt =>
      constructor
      · intro hcontra; cases hcontra
      · intro hnil
        exact absurd (by simp [hnil] :
          (p.search (toSearchPagesQuery q)).length ≤ 0) hgt
  · intro hne hall
    have hcoll := collectVisits_eq_nil hall
    simp only [getVisitsData]
    rw [if_neg (fun hle => hne (List.length_eq_zero.mp (Nat.le_zero.mp hle)))]
    rw [hcoll]
    simp [sortVisitsDesc, List.insertionSort]

/-- C9 witness: one page whose only visit, at t = 500, lies outside the
window [0, 100]: the result is the non-null empty list. -/
theorem c9_witness : getVisitsData providerC5 queryC9 = some [] :=
  (c9_null_iff_no_pages providerC5 queryC9).2 (by decide)
    (fun hi hmem vs hvs => by
      injection hvs with h
      subst h
      decide)

/-- C10 (confirmed): with excludeProtocolChange enabled, any visit list of
length at least two containing a record whose url does not match the
protocol regex makes the filter stage throw instead of returning a list
(this covers exactly the lists with a bad url at index 1 or later or at the
predecessor of such an index: every index is such when the length is at
least two, and no dereference happens on a singleton). -/
theorem c10_filter_throws_on_bad_url (cfg : FilterConfig)
    (hp : cfg.excludeProtocolChange = true) (l : List VisitRecord)
    (v : VisitRecord) (hlen : 2 ≤ l.length) (hv : v ∈ l)
    (hbad : getUrlAfterProtocol v.url = none) :
    processVisitsData l cfg = Except.error () := by
  obtain ⟨x, y, rest, rfl⟩ : ∃ x y rest, l = x :: y :: rest := by
    cases l with
    | nil => simp at hlen
    | cons x t =>
      cases t with
      | nil => simp at hlen
      | cons y rest => exact ⟨x, y, rest, rfl⟩
  have hfe : filterVisits cfg (some x) (y :: rest) = Except.error () := by
    rcases List.mem_cons.mp hv with rfl | hv'
    · exact filterVisits_error_of_bad hp (y :: rest) v
        (Or.inr ⟨hbad, by simp⟩)
    · exact filterVisits_error_of_bad hp (y :: rest) x (Or.inl ⟨v, hv', hbad⟩)
  unfold processVisitsData
  rw [filterVisits]
  simp only [hfe]

/-- C10 witness: a two-record list whose second url, about:blank, has no
protocol separator: the default-configured filter stage throws. -/
theorem c10_witness :
    processVisitsData [recGood10, recBad10] defaultFilterConfig =
      Except.error () :=
  c10_filter_throws_on_bad_url defaultFilterConfig rfl [recGood10, recBad10]
    recBad10 (by decide) (by simp) (by decide)
